import Mathlib

/-!
Shallow embedding of the resumable batch-fetch scripts of the
`dashboard_group3` repository, and proofs about them.

The embedded code:

* `src/database/unsplash_api.py` — `get_existing_pictures`, `save_pictures`,
  `fetch_country_images` (the per-country retry loop, rate-limit backoff,
  progress store, final save);
* `src/database/numbeo_data.py` — `safe_write_csv` and the per-country
  fetch loops of `main`;
* `src/Astrology test/astro_api.py` — the module-level per-sign fetch loop;
* `src/flight_data/fetch_route_prices.py` — `get_flight_network_data`.

File-system effects (writes to temporary files, atomic renames, in-place
truncating writes) are modelled as explicit event traces, so that atomicity
and ordering properties ("persist before sleeping", "a sleep between any two
HTTP calls") become statements about the traces the embedded code produces.
HTTP is modelled by an oracle supplying the scripted response for each
request the code makes.
-/

namespace Dashboard

/-! ## File-system operations

A persist routine is modelled by the sequence of file-system operations it
performs on the data directory.  `writeTmp` writes the complete new content
to a temporary path next to the target; `renameTmpOverTarget` atomically
replaces the target with the temporary file (`Path.replace` in the source);
`openTruncateTarget` is `open(target, "w")`, which truncates the target file
in place; `writeTarget` then streams the new content into the target. -/
inductive FsOp where
  | mkdirData
  | writeTmp
  | renameTmpOverTarget
  | openTruncateTarget
  | writeTarget
  deriving DecidableEq, Repr

/-- Observable states of the target file relative to one persist call:
the previous complete content (`old`), the new complete content (`new`),
or a partially written / truncated file (`torn`). -/
inductive TargetState where
  | old
  | new
  | torn
  deriving DecidableEq, Repr

/-- The target states observable while and after one file-system operation
runs, given that a process kill may land at any instant.  A rename is atomic:
the only state it exposes is the new complete file.  An in-place truncating
open exposes a torn (empty) target; a streaming write into the target passes
through torn states before ending at the new content. -/
def opObservations : FsOp → List TargetState
  | .mkdirData => []
  | .writeTmp => []
  | .renameTmpOverTarget => [.new]
  | .openTruncateTarget => [.torn]
  | .writeTarget => [.torn, .new]

/-- All target states observable during a trace of file-system operations,
starting from the previous complete state. -/
def observations (t : List FsOp) : List TargetState :=
  .old :: t.flatMap opObservations

/-- A trace is atomic when no observable point shows a torn target. -/
def atomicTrace (t : List FsOp) : Bool :=
  ¬ TargetState.torn ∈ observations t

/-! ## `safe_write_csv` (src/database/numbeo_data.py)

The DataFrame argument is modelled as `Option (List α)`: `none` is Python's
`None`, and a `List α` is the list of rows (`df.empty` holds exactly when the
row list is empty, and `len(df)` is its length).  The routine either raises
`RuntimeError` before touching the file system, or writes the CSV to a
temporary path and atomically replaces the target. -/
structure WriteResult where
  error : Option String
  fsOps : List FsOp
  deriving DecidableEq, Repr

/-- The routine `safe_write_csv(df, target_path, min_rows=1)`: validate the size of `df`;
on failure raise (no file-system operation is performed); on success write
`*.tmp` and replace the target. -/
def safe_write_csv {α : Type} (df : Option (List α)) (min_rows : Nat := 1) :
    WriteResult :=
  let n : Nat := match df with | none => 0 | some rows => rows.length
  match df with
  | none => ⟨some "Refusing to overwrite: df is None", []⟩
  | some rows =>
    if rows.isEmpty ∨ n < min_rows then
      ⟨some "Refusing to overwrite: too few rows", []⟩
    else
      ⟨none, [.writeTmp, .renameTmpOverTarget]⟩

/-! ## `save_pictures` (src/database/unsplash_api.py)

`save_pictures` makes the data directory, then opens the target path itself
with mode "w" (truncating it) and `json.dump`s the full record list into it.
There is no temporary file and no rename. -/
def save_pictures_fsOps : List FsOp :=
  [.mkdirData, .openTruncateTarget, .writeTarget]

/-! ## Unsplash fetcher data model (src/database/unsplash_api.py)

A country row of the ISO table, a photo as parsed from an Unsplash search
response, the image record the script builds from a photo, and a store entry
of `pictures.json`.  Every entry of `pictures.json` is appended only in the
success branch of the fetch loop (HTTP 200 with a non-empty result list), so
each persisted entry is a Success record; the store format has no field for
a failure and no failure is ever written. -/
structure Country where
  iso3 : String
  country_name : String
  deriving DecidableEq, Repr

structure Photo where
  url_regular : String
  url_small : String
  user_name : String
  user_link : String
  deriving DecidableEq, Repr

structure ImageRec where
  rank : Nat
  image_url : String
  image_small_url : String
  photographer_name : String
  photographer_url : String
  deriving DecidableEq, Repr

structure Entry where
  iso3 : String
  country_name : String
  images : List ImageRec
  deriving DecidableEq, Repr

/-- The image list built from `data.results`: `rank` is the 1-based index. -/
def mkImages (photos : List Photo) : List ImageRec :=
  photos.enum.map (fun p =>
    ⟨p.1 + 1, p.2.url_regular, p.2.url_small, p.2.user_name, p.2.user_link⟩)

/-- One scripted HTTP interaction of the inner `while True` loop:
`http status body` is a response with the given status code, where `body` is
the parsed value of `data.results` for a 200 response (`none` when
`response.json()` or the `results` access raises, i.e. a malformed body);
`exn` is a request that raised (timeout, connection error, ...). -/
inductive Resp where
  | http (status : Nat) (body : Option (List Photo))
  | exn
  deriving DecidableEq, Repr

/-- Events of the fetch loops, used to state ordering properties.
`call` is one outgoing HTTP request; `save` persists the accumulated results;
`sleepBackoff` is the long rate-limit sleep; `sleepSmall` the fixed
inter-call delay; `record` stores an outcome in the in-memory result set. -/
inductive Ev where
  | call
  | save
  | sleepBackoff
  | sleepSmall
  | record
  deriving DecidableEq, Repr

/-- The `while True` loop body run for one country, against the scripted
responses for its successive requests.  Returns the event trace and the
entry appended to `results` (or `none` when the loop breaks without
recording anything: empty result list, other HTTP status, or an exception).
On 403/429 the code saves the accumulated results, sleeps the long backoff
and retries the same request; the scripted list acts as fuel, and running
out of script ends the trace with no outcome. -/
def itemLoop (c : Country) : List Resp → List Ev × Option Entry
  | [] => ([], none)
  | .exn :: _ => ([.call], none)
  | .http status body :: rest =>
    if status = 403 ∨ status = 429 then
      let r := itemLoop c rest
      (.call :: .save :: .sleepBackoff :: r.1, r.2)
    else if status = 200 then
      match body with
      | none => ([.call], none)
      | some photos =>
        if photos.isEmpty then ([.call], none)
        else ([.call, .record], some ⟨c.iso3, c.country_name, mkImages photos⟩)
    else ([.call], none)

/-- Loading via `get_existing_pictures`: the on-disk state of `pictures.json` is
`none` when the file is missing (`FileNotFoundError`), `some none` when it
exists but `json.load` raises `ValueError`, and `some (some xs)` when it
parses to the record list `xs`.  The two exception cases return the empty
list; nothing escapes the `except` clause. -/
def get_existing_pictures : Option (Option (List Entry)) → List Entry
  | none => []
  | some none => []
  | some (some xs) => xs

/-- The frame `countries_to_fetch`: the rows of the ISO table whose `iso3` is not
among the `iso3` keys of the loaded store
(`df_iso[~df_iso.iso3.isin(existing_iso3)]`). -/
def remainingCountries (enumerated : List Country) (store : List Entry) :
    List Country :=
  enumerated.filter (fun c => !((store.map Entry.iso3).contains c.iso3))

/-- The `for index, row in countries_to_fetch.iterrows()` loop: run the
inner loop for each country against its scripted responses, append the
returned entry (if any) to the accumulated results, and sleep the fixed
0.5 s inter-call delay after every item. -/
def runItems (oracle : String → List Resp) :
    List Country → List Entry → List Ev × List Entry
  | [], results => ([], results)
  | c :: cs, results =>
    let r := itemLoop c (oracle c.iso3)
    let results' := match r.2 with
      | some e => results ++ [e]
      | none => results
    let rec' := runItems oracle cs results'
    (r.1 ++ [.sleepSmall] ++ rec'.1, rec'.2)

/-- The run `fetch_country_images`, from the point where the ISO table has loaded:
load the existing store, filter to the countries still to fetch, run the
loop, and perform the final `save_pictures(results)`.  Returns the event
trace of the run and the record list the final save writes — i.e. the new
content of `pictures.json` (serialisation of equal record lists is
byte-identical). -/
def fetch_country_images (enumerated : List Country)
    (storeFile : Option (Option (List Entry)))
    (oracle : String → List Resp) : List Ev × List Entry :=
  let existing := get_existing_pictures storeFile
  let toFetch := remainingCountries enumerated existing
  let r := runItems oracle toFetch existing
  (r.1 ++ [.save], r.2)

/-- The number of HTTP requests a trace contains. -/
def callCount (t : List Ev) : Nat :=
  t.countP (fun e => e = .call)

/-! ## Astrology fetcher (src/Astrology test/astro_api.py)

The module-level loop fetches one horoscope per zodiac sign.  A response is
a status code with an optional parsed body (`none` when `response.json()`
raises, which in the `requests` library is a `RequestException` caught by
the loop's second `except` clause), a timeout, or another request error. -/
inductive ARsp where
  | http (status : Nat) (body : Option String)
  | timeout
  | reqError (msg : String)
  deriving DecidableEq, Repr

/-- What the loop stores in `all_daily_horoscopes[sign]`: the parsed data on
a 200, or an error record on any failure. -/
inductive AOutcome where
  | success (data : String)
  | failure (err : String)
  deriving DecidableEq, Repr

/-- One iteration of the sign loop: 200 with a parseable body stores the
data; 200 with an unparseable body raises inside the `try` and is stored as
a request-error record; any other status stores an HTTP-error record;
a timeout or request exception stores the corresponding error record.
Every path stores something and none re-raises. -/
def astroItem : ARsp → AOutcome
  | .timeout => .failure "Timeout"
  | .reqError m => .failure m
  | .http status body =>
    if status = 200 then
      match body with
      | some d => .success d
      | none => .failure "JSONDecodeError"
    else .failure ("HTTP " ++ toString status)

/-- The whole astrology run: one recorded outcome per sign, in order. -/
def astroRun (signs : List String) (oracle : String → ARsp) :
    List (String × AOutcome) :=
  signs.map (fun s => (s, astroItem (oracle s)))

/-- Event trace of one iteration of the sign loop: one request, then the
outcome is recorded; no path of the loop body sleeps. -/
def astroItemTrace : ARsp → List Ev
  | .timeout => [.call, .record]
  | .reqError _ => [.call, .record]
  | .http _ _ => [.call, .record]

/-- Event trace of the whole astrology loop. -/
def astroTrace (signs : List String) (oracle : String → ARsp) : List Ev :=
  signs.flatMap (fun s => astroItemTrace (oracle s))

/-! ## Numbeo per-country loops (src/database/numbeo_data.py, `main`)

Both per-country loops (`country_prices`, step 3, and `country_indices`,
step 4) have the shape `try: <one API call; append rows> except: <count the
failure>` followed by `time.sleep(SLEEP_SECONDS)` at the end of the loop
body, on both paths.  The trace abstracts one iteration by whether the
`try` body succeeded. -/
def numbeoIterTrace : Bool → List Ev
  | true => [.call, .record, .sleepSmall]
  | false => [.call, .sleepSmall]

/-- Event trace of one whole Numbeo per-country loop. -/
def numbeoLoopTrace (countries : List String) (ok : String → Bool) :
    List Ev :=
  countries.flatMap (fun c => numbeoIterTrace (ok c))

/-! ## Inter-call delay checker

`sepFrom flag t` scans a trace keeping a flag that is true when a sleep (of
either kind) has occurred since the most recent HTTP call, or when no call
has occurred yet; it is true exactly when every two consecutive calls of `t`
have a sleep strictly between them (given the incoming flag). -/
def sepFrom : Bool → List Ev → Bool
  | _, [] => true
  | flag, .call :: t => flag && sepFrom false t
  | _, .sleepSmall :: t => sepFrom true t
  | _, .sleepBackoff :: t => sepFrom true t
  | flag, .save :: t => sepFrom flag t
  | flag, .record :: t => sepFrom flag t

/-- The flag `sepFrom` ends with after scanning a trace. -/
def flagAfter : Bool → List Ev → Bool
  | flag, [] => flag
  | _, .call :: t => flagAfter false t
  | _, .sleepSmall :: t => flagAfter true t
  | _, .sleepBackoff :: t => flagAfter true t
  | flag, .save :: t => flagAfter flag t
  | flag, .record :: t => flagAfter flag t

/-! ## Flight-route fetcher (src/flight_data/fetch_route_prices.py)

`get_flight_network_data(airports_df)` selects the busiest airport per
country, builds routes from the busiest US and DE airports to every hub,
refuses to fetch when more than 1000 routes were generated, and otherwise
fetches each route and caches the result. -/
structure Airport where
  iata_code : String
  iso2 : String
  passenger_volume : Nat
  deriving DecidableEq, Repr

/-- One row of the result DataFrame. -/
structure RouteRow where
  origin : String
  destination : String
  price_eur : String
  is_direct : Bool
  stops : Nat
  deriving DecidableEq, Repr

/-- The part of a flight-offers response the loop body reads: the price
total of the cheapest offer and the segment counts of its itineraries.
`none` models a response with no `data`, an empty `data` list, or any
exception in the body (swallowed by `except Exception: pass`). -/
structure Offer where
  price_total : String
  itinerarySegments : List Nat
  deriving DecidableEq, Repr

/-- Events of the flight fetch: one route-price request, the inter-call
sleep, and the final cache write. -/
inductive FEv where
  | routeFetch
  | sleepRoute
  | writeCache
  deriving DecidableEq, Repr

/-- Insert into a list sorted by descending `passenger_volume`
(`sort_values(by=passenger_volume, ascending=False)`; ties keep an
unspecified order in pandas quicksort, here insertion order). -/
def insertByVolume (a : Airport) : List Airport → List Airport
  | [] => [a]
  | b :: l =>
    if b.passenger_volume < a.passenger_volume then a :: b :: l
    else b :: insertByVolume a l

/-- Sort airports by descending passenger volume. -/
def sortByVolumeDesc : List Airport → List Airport
  | [] => []
  | a :: l => insertByVolume a (sortByVolumeDesc l)

/-- The step `groupby(iso2).head(1)` on the sorted frame: keep the first row of each
`iso2`, in row order. -/
def keepFirstPerIso2 : List Airport → List String → List Airport
  | [], _ => []
  | a :: l, seen =>
    if seen.contains a.iso2 then keepFirstPerIso2 l seen
    else a :: keepFirstPerIso2 l (a.iso2 :: seen)

/-- Steps 4 of the source: the busiest airport per country, the US and DE
origin IATA codes (the first matching row of the filtered frame; `none`
when either country has no airport), and the destination list. -/
def prepareOriginsAndDests (airports : List Airport) :
    Option (String × String × List String) :=
  let top := keepFirstPerIso2 (sortByVolumeDesc airports) []
  match top.find? (fun a => a.iso2 = "US"), top.find? (fun a => a.iso2 = "DE") with
  | some usRow, some deRow =>
    some (usRow.iata_code, deRow.iata_code, top.map Airport.iata_code)
  | _, _ => none

/-- Step 5: for each destination, a route from the US origin unless the
destination is the US origin itself, then likewise for the DE origin. -/
def genRoutes (usO deO : String) (dests : List String) :
    List (String × String) :=
  dests.flatMap (fun d =>
    (if d ≠ usO then [(usO, d)] else []) ++
    (if d ≠ deO then [(deO, d)] else []))

/-- The route list `get_flight_network_data` generates from an airports
frame (empty when origin selection already failed). -/
def routesOf (airports : List Airport) : List (String × String) :=
  match prepareOriginsAndDests airports with
  | some (usO, deO, dests) => genRoutes usO deO dests
  | none => []

/-- Step 8, the fetch loop: one request per route; when the response has
data, the cheapest offer becomes a result row (`stops` is the segment count
of the first itinerary minus one, or 0 with no itineraries); any exception
is swallowed; the loop sleeps 0.3 s after every route. -/
def fetchRoutes (oracle : String × String → Option Offer) :
    List (String × String) → List FEv × List RouteRow
  | [] => ([], [])
  | route :: rs =>
    let rows := match oracle route with
      | some offer =>
        let stops := match offer.itinerarySegments with
          | [] => 0
          | segs :: _ => segs - 1
        [⟨route.1, route.2, offer.price_total, stops = 0, stops⟩]
      | none => []
    let r := fetchRoutes oracle rs
    (.routeFetch :: .sleepRoute :: r.1, rows ++ r.2)

/-- The function `get_flight_network_data`: return the cache when it exists and parses;
abort on missing credentials, on failed origin selection, when more than
1000 routes were generated (before any request and before authentication),
or on a failed token request; otherwise fetch every route and write the
cache file when any row was collected.  The cache-file argument is `none`
when missing, `some none` when present but unparseable, `some (some df)`
when it parses to `df`. -/
def get_flight_network_data (cache : Option (Option (List RouteRow)))
    (credsPresent : Bool) (airports : List Airport) (tokenOk : Bool)
    (oracle : String × String → Option Offer) : List FEv × List RouteRow :=
  match cache with
  | some (some df) => ([], df)
  | _ =>
    if credsPresent then
      match prepareOriginsAndDests airports with
      | none => ([], [])
      | some (usO, deO, dests) =>
        let routes := genRoutes usO deO dests
        if 1000 < routes.length then ([], [])
        else if tokenOk then
          let r := fetchRoutes oracle routes
          (r.1 ++ (if r.2.isEmpty then [] else [.writeCache]), r.2)
        else ([], [])
    else ([], [])

/-- The number of route-price requests in a flight trace. -/
def routeFetchCount (t : List FEv) : Nat :=
  t.countP (fun e => e = .routeFetch)

/-- The row count of an optional DataFrame (`0` for Python's `None`). -/
def dfLen {α : Type} : Option (List α) → Nat
  | none => 0
  | some rows => rows.length

/-! ## Concrete data used by the witnesses -/

def wPhoto : Photo := ⟨"regular-url", "small-url", "photographer", "portfolio-url"⟩

def wCountryA : Country := ⟨"ALB", "Albania"⟩

def wCountryB : Country := ⟨"BEL", "Belgium"⟩

def wCountryC : Country := ⟨"CHL", "Chile"⟩

def wEntryA : Entry := ⟨"ALB", "Albania", mkImages [wPhoto]⟩

/-- An ISO2-like code unique to each positive index: `j` copies of `C`. -/
def hubIso2 (j : Nat) : String := String.mk (List.replicate j 'C')

/-- An IATA-like code unique to each positive index: `j` copies of `A`. -/
def hubIata (j : Nat) : String := String.mk (List.replicate j 'A')

/-- A frame of `k` hub airports with pairwise distinct countries and strictly
decreasing passenger volumes starting at `vol`. -/
def mkHubs : Nat → Nat → List Airport
  | _, 0 => []
  | vol, Nat.succ k => ⟨hubIata (k + 1), hubIso2 (k + 1), vol⟩ :: mkHubs (vol - 1) k

/-- An airports frame with a busiest US airport, a busiest DE airport, and
`k` further one-airport countries, sorted by descending volume. -/
def mkAirports (k : Nat) : List Airport :=
  ⟨"USH", "US", 5000⟩ :: ⟨"DEH", "DE", 4000⟩ :: mkHubs 3000 k

/-! ## Theorems -/

/-- C7: the progress-store load returns the parsed contents when the file
exists and parses, and the empty store when the file is missing or
unparseable; it is a total function, so no exception reaches the caller. -/
theorem load_store_total :
    ∀ (xs : List Entry),
      get_existing_pictures (some (some xs)) = xs ∧
      get_existing_pictures none = [] ∧
      get_existing_pictures (some none) = [] := by
  intro xs
  exact ⟨rfl, rfl, rfl⟩

/-- C1 counterexample: `save_pictures` opens the target path itself in
write mode and streams the JSON into it, so a kill mid-write exposes a
torn target state — the persist is not of the write-temp-then-rename
form the claim asserts for every persist operation. -/
theorem save_pictures_exposes_torn_state :
    TargetState.torn ∈ observations save_pictures_fsOps := by
  decide

/-- C1 amended: `safe_write_csv` persists atomically — every state of the
target observable during any of its runs is the previous or the new
complete state — but `save_pictures` writes the target in place, with no
temporary file, and exposes a torn state to a mid-write kill. -/
theorem persist_atomicity_corrected :
    ∀ (α : Type) (df : Option (List α)) (mr : Nat),
      atomicTrace (safe_write_csv df mr).fsOps = true ∧
      atomicTrace save_pictures_fsOps = false := by
  intro α df mr
  refine ⟨?_, by decide⟩
  match df with
  | none => rfl
  | some rows =>
    by_cases h : rows.isEmpty ∨ rows.length < mr
    · simp [safe_write_csv, if_pos h, atomicTrace, observations, opObservations]
    · simp [safe_write_csv, if_neg h, atomicTrace, observations, opObservations]

/-- C3 counterexample: with a configured minimum of 0 rows, committing an
empty DataFrame has at least `min_rows` rows, yet `safe_write_csv` raises
and performs no write — the claim's success case does not hold for every
configured minimum. -/
theorem safe_write_min_rows_zero_refuses :
    (safe_write_csv (some ([] : List Nat)) 0).error.isSome = true ∧
    (safe_write_csv (some ([] : List Nat)) 0).fsOps = [] := by
  decide

/-- C3 amended: committing a DataFrame that is None, empty, or below the
configured minimum raises the fatal error and performs no file-system
operation, so the existing target is untouched at every observable point;
committing a non-empty DataFrame with at least `min_rows` rows writes the
temporary file and atomically replaces the target. -/
theorem safe_write_guard_corrected :
    ∀ (α : Type) (df : Option (List α)) (mr : Nat) (rows : List α),
      ((df = none ∨ df = some [] ∨ dfLen df < mr) →
        (safe_write_csv df mr).error.isSome = true ∧
        (safe_write_csv df mr).fsOps = [] ∧
        observations (safe_write_csv df mr).fsOps = [.old]) ∧
      (df = some rows → rows ≠ [] → mr ≤ rows.length →
        (safe_write_csv df mr).error = none ∧
        (safe_write_csv df mr).fsOps = [.writeTmp, .renameTmpOverTarget] ∧
        observations (safe_write_csv df mr).fsOps = [.old, .new]) := by
  intro α df mr rows
  constructor
  · intro h
    match df, h with
    | none, _ => exact ⟨rfl, rfl, rfl⟩
    | some rs, h =>
      have hcond : rs.isEmpty ∨ rs.length < mr := by
        rcases h with h | h | h
        · exact absurd h (by simp)
        · left
          simp [Option.some.injEq] at h
          simp [h]
        · right
          simpa [dfLen] using h
      simp [safe_write_csv, if_pos hcond, observations, opObservations]
  · intro hdf hne hlen
    subst hdf
    have hcond : ¬ (rows.isEmpty ∨ rows.length < mr) := by
      simp only [List.isEmpty_iff]
      push_neg
      exact ⟨hne, hlen⟩
    simp [safe_write_csv, if_neg hcond, observations, opObservations]

/-- C3 witness: with the guard at 2 rows, a 1-row commit raises and leaves
the target untouched, and a 2-row commit replaces the target. -/
theorem safe_write_guard_corrected_witness :
    (safe_write_csv (some [1]) 2).fsOps = [] ∧
    (safe_write_csv (some [1, 2]) 2).fsOps =
      [FsOp.writeTmp, FsOp.renameTmpOverTarget] :=
  ⟨((safe_write_guard_corrected Nat (some [1]) 2 [1]).1
      (Or.inr (Or.inr (by decide)))).2.1,
   ((safe_write_guard_corrected Nat (some [1, 2]) 2 [1, 2]).2
      rfl (by decide) (by decide)).2.1⟩

/-- Filtering out the identifiers of the first `k` enumerated items leaves
exactly the items from position `k` on, when identifiers are unique. -/
theorem filter_take_eq_drop :
    ∀ (l : List Country) (k : Nat), (l.map Country.iso3).Nodup →
      l.filter
        (fun c => !(((l.take k).map Country.iso3).contains c.iso3)) =
        l.drop k := by
  intro l
  induction l with
  | nil => intro k _; simp
  | cons c cs ih =>
    intro k hnd
    rw [List.map_cons, List.nodup_cons] at hnd
    cases k with
    | zero => simp
    | succ k =>
      have hne : ∀ x ∈ cs, x.iso3 ≠ c.iso3 := by
        intro x hx h
        exact hnd.1 (h ▸ List.mem_map_of_mem Country.iso3 hx)
      simp only [List.take_succ_cons, List.map_cons, List.drop_succ_cons,
        List.filter_cons]
      have hc : (!(c.iso3 :: (cs.take k).map Country.iso3).contains c.iso3) =
          false := by
        simp [List.contains_cons]
      rw [hc]
      simp only [Bool.false_eq_true, if_false]
      rw [List.filter_congr (fun x hx => ?_)]
      · exact ih k hnd.2
      · simp [List.contains_cons, hne x hx]

/-- C2: the remaining-work computation returns exactly the enumerated
items whose identifier is not a key of the store (every persisted entry is
a Success record — the store format has no Failure entries, so no stored
key is ever a Failure), it preserves the enumerator's order (it is a
sublist of the enumeration), and when the store holds exactly the
identifiers of the first `k` enumerated items a restart computes exactly
the items after position `k` as remaining. -/
theorem remaining_work_correct :
    ∀ (enumerated : List Country) (store : List Entry) (k : Nat),
      (∀ c, c ∈ remainingCountries enumerated store ↔
        c ∈ enumerated ∧ c.iso3 ∉ store.map Entry.iso3) ∧
      (remainingCountries enumerated store).Sublist enumerated ∧
      ((enumerated.map Country.iso3).Nodup →
        store.map Entry.iso3 = (enumerated.take k).map Country.iso3 →
        remainingCountries enumerated store = enumerated.drop k) := by
  intro enumerated store k
  refine ⟨?_, List.filter_sublist enumerated, ?_⟩
  · intro c
    simp [remainingCountries, List.mem_filter]
  · intro hnd hkeys
    unfold remainingCountries
    rw [hkeys]
    exact filter_take_eq_drop enumerated k hnd

/-- C2 witness: with three countries enumerated and the first one already
stored with a Success entry, the remaining work is the last two countries,
in order. -/
theorem remaining_work_correct_witness :
    remainingCountries [wCountryA, wCountryB, wCountryC] [wEntryA] =
      [wCountryB, wCountryC] :=
  (remaining_work_correct [wCountryA, wCountryB, wCountryC] [wEntryA] 1).2.2
    (by decide) (by decide)

/-- C4: on a 429 or 403 response the loop persists the accumulated results
(the `save` event) strictly before the backoff sleep, and afterwards
continues the loop for the same item — its trace and outcome are those of
the same item's loop on the remaining responses, not the next item's; and
an item scripted with responses 200 (with results), 429, 200 records a
Success outcome. -/
theorem rate_limit_persist_and_retry :
    ∀ (c : Country) (status : Nat) (body : Option (List Photo))
      (rest : List Resp) (p : Photo) (ps : List Photo) (r2 r3 : Resp),
      ((status = 403 ∨ status = 429) →
        (itemLoop c (.http status body :: rest)).1 =
          .call :: .save :: .sleepBackoff :: (itemLoop c rest).1 ∧
        (itemLoop c (.http status body :: rest)).2 = (itemLoop c rest).2) ∧
      (itemLoop c [.http 200 (some (p :: ps)), r2, r3]).2 =
        some ⟨c.iso3, c.country_name, mkImages (p :: ps)⟩ := by
  intro c status body rest p ps r2 r3
  constructor
  · intro h
    rcases h with h | h <;> subst h <;> simp [itemLoop]
  · simp [itemLoop]

/-- C4 witness: a 429 followed by a successful 200 saves, sleeps, and
retries the same country, ending in a Success; the scripted sequence
200, 429, 200 records Success for the item. -/
theorem rate_limit_persist_and_retry_witness :
    (itemLoop wCountryA
      [Resp.http 429 none, Resp.http 200 (some [wPhoto])]).1 =
      [Ev.call, Ev.save, Ev.sleepBackoff, Ev.call, Ev.record] ∧
    (itemLoop wCountryA [Resp.http 200 (some [wPhoto]), Resp.http 429 none,
      Resp.http 200 (some [wPhoto])]).2 =
      some ⟨wCountryA.iso3, wCountryA.country_name, mkImages [wPhoto]⟩ := by
  have h := rate_limit_persist_and_retry wCountryA 429 none
    [Resp.http 200 (some [wPhoto])] wPhoto [] (Resp.http 429 none)
    (Resp.http 200 (some [wPhoto]))
  exact ⟨by rw [(h.1 (Or.inr rfl)).1]; decide, h.2⟩

/-- The loop `runItems` only appends to the accumulated results: whatever was
loaded from the store stays, unmodified, as a prefix. -/
theorem runItems_prefix :
    ∀ (oracle : String → List Resp) (cs : List Country) (res : List Entry),
      ∃ t, (runItems oracle cs res).2 = res ++ t := by
  intro oracle cs
  induction cs with
  | nil => intro res; exact ⟨[], by simp [runItems]⟩
  | cons c cs ih =>
    intro res
    simp only [runItems]
    cases hout : (itemLoop c (oracle c.iso3)).2 with
    | none =>
      obtain ⟨t, ht⟩ := ih res
      exact ⟨t, by simp [hout, ht]⟩
    | some e =>
      obtain ⟨t, ht⟩ := ih (res ++ [e])
      exact ⟨[e] ++ t, by simp [hout, ht]⟩

/-- C5: a run never modifies the Success entries loaded from the store —
they persist as an unchanged prefix of the final record list (a later run
can only append new Success entries, e.g. for items that previously had
none); and when every enumerated identifier already has a Success entry,
a second run performs zero HTTP calls and the final save writes exactly
the loaded record list, so the serialised store file is byte-identical. -/
theorem idempotent_second_run :
    ∀ (enumerated : List Country) (store : List Entry)
      (oracle : String → List Resp),
      (∃ t, (fetch_country_images enumerated (some (some store)) oracle).2 =
        store ++ t) ∧
      ((∀ c ∈ enumerated, c.iso3 ∈ store.map Entry.iso3) →
        callCount
          (fetch_country_images enumerated (some (some store)) oracle).1 = 0 ∧
        (fetch_country_images enumerated (some (some store)) oracle).2 =
          store) := by
  intro enumerated store oracle
  constructor
  · simpa [fetch_country_images, get_existing_pictures] using
      runItems_prefix oracle (remainingCountries enumerated store) store
  · intro hall
    have hrem : remainingCountries enumerated store = [] := by
      refine List.filter_eq_nil_iff.mpr ?_
      intro c hc
      simp [hall c hc]
    simp [fetch_country_images, get_existing_pictures, hrem, runItems,
      callCount]

/-- C5 witness: with one country enumerated and its Success entry already
stored, the second run makes no HTTP call and rewrites the same store. -/
theorem idempotent_second_run_witness :
    callCount (fetch_country_images [wCountryA] (some (some [wEntryA]))
      (fun _ => [])).1 = 0 ∧
    (fetch_country_images [wCountryA] (some (some [wEntryA]))
      (fun _ => [])).2 = [wEntryA] :=
  (idempotent_second_run [wCountryA] [wEntryA] (fun _ => [])).2 (by decide)

/-- C6 counterexample: in the Unsplash fetcher a non-rate-limit HTTP error
(status 500) for an item leaves the result store without any entry for the
item — the claim that the failure is recorded as a Failure entry in the
result store is false for this fetch boundary (the store ends empty). -/
theorem unsplash_failure_unrecorded :
    (fetch_country_images [wCountryB] (some (some []))
      (fun _ => [Resp.http 500 none])).2 = [] := by
  decide

/-- C6 amended: a non-rate-limit failure (timeout, other HTTP status,
malformed body) never escapes the fetch boundary (both embedded loop
bodies are total functions on every response), the item is not retried
within the run (no further scripted response is consumed), and the run
continues with the next item; the astrology fetcher records the failure
as a Failure entry, while the Unsplash fetcher records nothing at all for
the item. -/
theorem nonratelimit_failure_corrected :
    ∀ (r : ARsp) (sign : String) (signs : List String)
      (aorc : String → ARsp) (c : Country) (status : Nat)
      (body : Option (List Photo)) (rest : List Resp) (cs : List Country)
      (oracle : String → List Resp) (res : List Entry),
      ((∀ d, r ≠ .http 200 (some d)) → ∃ msg, astroItem r = .failure msg) ∧
      (astroRun (sign :: signs) aorc =
        (sign, astroItem (aorc sign)) :: astroRun signs aorc) ∧
      (status ≠ 200 → status ≠ 403 → status ≠ 429 →
        itemLoop c (.http status body :: rest) = ([.call], none)) ∧
      (itemLoop c (.exn :: rest) = ([.call], none)) ∧
      (itemLoop c (.http 200 none :: rest) = ([.call], none)) ∧
      (itemLoop c (oracle c.iso3) = ([.call], none) →
        runItems oracle (c :: cs) res =
          (.call :: .sleepSmall :: (runItems oracle cs res).1,
           (runItems oracle cs res).2)) := by
  intro r sign signs aorc c status body rest cs oracle res
  refine ⟨?_, rfl, ?_, rfl, by simp [itemLoop], ?_⟩
  · intro h
    match r with
    | .timeout => exact ⟨"Timeout", rfl⟩
    | .reqError m => exact ⟨m, rfl⟩
    | .http s b =>
      by_cases hs : s = 200
      · subst hs
        match b with
        | none => exact ⟨"JSONDecodeError", by simp [astroItem]⟩
        | some d => exact absurd rfl (h d)
      · exact ⟨"HTTP " ++ toString s, by simp [astroItem, hs]⟩
  · intro h1 h2 h3
    simp [itemLoop, h1, h2, h3]
  · intro h
    simp [runItems, h]

/-- C6 witness: a timeout in the astrology loop yields a recorded Failure;
a 500 in the Unsplash loop breaks after one call with nothing recorded. -/
theorem nonratelimit_failure_corrected_witness :
    (∃ msg, astroItem ARsp.timeout = AOutcome.failure msg) ∧
    itemLoop wCountryB [Resp.http 500 none] = ([Ev.call], none) := by
  have h := nonratelimit_failure_corrected ARsp.timeout "aries" []
    (fun _ => ARsp.timeout) wCountryB 500 none [] [] (fun _ => []) []
  exact ⟨h.1 (fun d hd => ARsp.noConfusion hd),
    h.2.2.1 (by decide) (by decide) (by decide)⟩

/-- C9: a 200 response whose parsed body has an empty result list makes
the loop break with no entry recorded (neither Success nor Failure), so
with such an item the store survives the run unchanged, the item is
computed as remaining work again, the run fetches it again (one HTTP
call), and iterating whole runs any number of times leaves the store
unchanged — it never converges to containing the item. -/
theorem empty_results_unrecorded_refetch :
    ∀ (c : Country) (rest : List Resp) (store : List Entry)
      (oracle : String → List Resp),
      itemLoop c (.http 200 (some []) :: rest) = ([.call], none) ∧
      ((store.map Entry.iso3).contains c.iso3 = false →
        oracle c.iso3 = [.http 200 (some [])] →
        remainingCountries [c] store = [c] ∧
        (fetch_country_images [c] (some (some store)) oracle).2 = store ∧
        callCount
          (fetch_country_images [c] (some (some store)) oracle).1 = 1 ∧
        (∀ n, (fun s =>
          (fetch_country_images [c] (some (some s)) oracle).2)^[n] store =
            store)) := by
  intro c rest store oracle
  refine ⟨by simp [itemLoop], ?_⟩
  intro h1 h2
  have h1' : ∀ x ∈ store, ¬ x.iso3 = c.iso3 := by simpa using h1
  have hrem : remainingCountries [c] store = [c] := by
    simp [remainingCountries]
    exact h1'
  have hrun : fetch_country_images [c] (some (some store)) oracle =
      ([Ev.call, Ev.sleepSmall, Ev.save], store) := by
    simp [fetch_country_images, get_existing_pictures, hrem, runItems, h2,
      itemLoop]
  have hfix : (fun s =>
      (fetch_country_images [c] (some (some s)) oracle).2) store = store := by
    simpa using congrArg Prod.snd hrun
  refine ⟨hrem, by rw [hrun], by rw [hrun]; rfl, fun n => ?_⟩
  exact Function.iterate_fixed hfix n

/-- C9 witness: an unknown country scripted as 200-with-no-results stays
out of the store and remains in the remaining-work list. -/
theorem empty_results_unrecorded_refetch_witness :
    remainingCountries [wCountryC] [] = [wCountryC] ∧
    (fetch_country_images [wCountryC] (some (some []))
      (fun _ => [Resp.http 200 (some [])])).2 = [] := by
  have h := (empty_results_unrecorded_refetch wCountryC [] []
    (fun _ => [Resp.http 200 (some [])])).2 (by decide) rfl
  exact ⟨h.1, h.2.1⟩

/-- The delay checker distributes over trace concatenation. -/
theorem sepFrom_append :
    ∀ (t1 t2 : List Ev) (f : Bool),
      sepFrom f (t1 ++ t2) =
        (sepFrom f t1 && sepFrom (flagAfter f t1) t2) := by
  intro t1
  induction t1 with
  | nil => intro t2 f; simp [sepFrom, flagAfter]
  | cons e t ih =>
    intro t2 f
    cases e <;> simp [sepFrom, flagAfter, ih, Bool.and_assoc]

/-- The delay-checker flag distributes over trace concatenation. -/
theorem flagAfter_append :
    ∀ (t1 t2 : List Ev) (f : Bool),
      flagAfter f (t1 ++ t2) = flagAfter (flagAfter f t1) t2 := by
  intro t1
  induction t1 with
  | nil => intro t2 f; simp [flagAfter]
  | cons e t ih =>
    intro t2 f
    cases e <;> simp [flagAfter, ih]

/-- Every control path of the inner Unsplash loop keeps consecutive HTTP
calls separated by a sleep (the long backoff separates retries). -/
theorem itemLoop_sep :
    ∀ (c : Country) (rs : List Resp),
      sepFrom true (itemLoop c rs).1 = true := by
  intro c rs
  induction rs with
  | nil => rfl
  | cons r rest ih =>
    cases r with
    | exn => rfl
    | http status body =>
      by_cases h1 : status = 403 ∨ status = 429
      · simp only [itemLoop, if_pos h1]
        simp [sepFrom, ih]
      · by_cases h2 : status = 200
        · subst h2
          cases body with
          | none => simp [itemLoop, h1, sepFrom]
          | some photos =>
            by_cases hp : photos.isEmpty <;> simp [itemLoop, h1, hp, sepFrom]
        · simp only [itemLoop, if_neg h1, if_neg h2]
          rfl

/-- Every control path of the outer Unsplash loop keeps consecutive HTTP
calls separated by a sleep (the 0.5 s delay closes every item). -/
theorem runItems_sep :
    ∀ (oracle : String → List Resp) (cs : List Country) (res : List Entry),
      sepFrom true (runItems oracle cs res).1 = true := by
  intro oracle cs
  induction cs with
  | nil => intro res; rfl
  | cons c cs ih =>
    intro res
    simp only [runItems]
    rw [sepFrom_append, sepFrom_append, flagAfter_append]
    simp [itemLoop_sep, ih, sepFrom, flagAfter]

/-- Both Numbeo per-country loops sleep on every control path of the loop
body, so consecutive calls are always separated. -/
theorem numbeoLoop_sep :
    ∀ (countries : List String) (ok : String → Bool),
      sepFrom true (numbeoLoopTrace countries ok) = true := by
  intro countries ok
  induction countries with
  | nil => rfl
  | cons c cs ih =>
    have h : numbeoLoopTrace (c :: cs) ok =
        numbeoIterTrace (ok c) ++ numbeoLoopTrace cs ok := by
      simp [numbeoLoopTrace]
    rw [h, sepFrom_append]
    cases ok c <;> simp [numbeoIterTrace, sepFrom, flagAfter, ih]

/-- The astrology loop body never sleeps, on any control path. -/
theorem astroTrace_no_sleep :
    ∀ (signs : List String) (aorc : String → ARsp),
      (astroTrace signs aorc).countP
        (fun e => e = Ev.sleepSmall ∨ e = Ev.sleepBackoff) = 0 := by
  intro signs aorc
  induction signs with
  | nil => rfl
  | cons s ss ih =>
    have h : astroTrace (s :: ss) aorc =
        astroItemTrace (aorc s) ++ astroTrace ss aorc := by
      simp [astroTrace]
    rw [h, List.countP_append, ih]
    cases aorc s <;> rfl

/-- C8 counterexample: in the astrology fetch loop two consecutive items
produce two HTTP calls with no sleep of any kind between them — no
inter-call delay is enforced in that instance of the batch-fetch loop. -/
theorem astro_loop_lacks_delay :
    sepFrom true
      (astroTrace ["aries", "taurus"] (fun _ => ARsp.timeout)) = false := by
  decide

/-- C8 amended: the Unsplash fetch run and the Numbeo per-country loops
enforce a sleep between any two consecutive HTTP calls on every control
path (inter-item delay plus rate-limit backoff), but the astrology loop
contains no sleep event at all. -/
theorem intercall_delay_corrected :
    ∀ (enumerated : List Country) (storeFile : Option (Option (List Entry)))
      (oracle : String → List Resp) (countries : List String)
      (ok : String → Bool) (signs : List String) (aorc : String → ARsp),
      sepFrom true (fetch_country_images enumerated storeFile oracle).1 =
        true ∧
      sepFrom true (numbeoLoopTrace countries ok) = true ∧
      (astroTrace signs aorc).countP
        (fun e => e = Ev.sleepSmall ∨ e = Ev.sleepBackoff) = 0 := by
  intro enumerated storeFile oracle countries ok signs aorc
  refine ⟨?_, numbeoLoop_sep countries ok, astroTrace_no_sleep signs aorc⟩
  simp only [fetch_country_images]
  rw [sepFrom_append]
  simp [runItems_sep, sepFrom]

/-- Inserting an airport busier than the head (or into an empty list) puts
it in front. -/
theorem insertByVolume_front :
    ∀ (a : Airport) (l : List Airport),
      (∀ b ∈ l.head?, b.passenger_volume < a.passenger_volume) →
      insertByVolume a l = a :: l := by
  intro a l h
  cases l with
  | nil => rfl
  | cons b t =>
    rw [insertByVolume]
    rw [if_pos (h b rfl)]

/-- Sorting a list already in strictly descending volume order leaves it
unchanged. -/
theorem sortByVolumeDesc_fix :
    ∀ (l : List Airport),
      List.Chain'
        (fun a b : Airport => b.passenger_volume < a.passenger_volume) l →
      sortByVolumeDesc l = l := by
  intro l
  induction l with
  | nil => intro _; rfl
  | cons a t ih =>
    intro h
    rw [List.chain'_cons'] at h
    rw [sortByVolumeDesc, ih h.2]
    exact insertByVolume_front a t h.1

/-- The frame `mkHubs vol k` has strictly descending volumes when `k ≤ vol`. -/
theorem mkHubs_chain :
    ∀ (k vol : Nat), k ≤ vol →
      List.Chain'
        (fun a b : Airport => b.passenger_volume < a.passenger_volume)
        (mkHubs vol k) := by
  intro k
  induction k with
  | zero => intro vol _; simp [mkHubs]
  | succ k ih =>
    intro vol hkv
    rw [mkHubs, List.chain'_cons']
    refine ⟨?_, ih (vol - 1) (by omega)⟩
    intro y hy
    cases k with
    | zero => simp [mkHubs] at hy
    | succ j =>
      rw [mkHubs] at hy
      simp only [List.head?_cons, Option.mem_def, Option.some.injEq] at hy
      rw [← hy]
      show vol - 1 < vol
      omega

/-- Dropping already-seen countries from a list whose countries are fresh
and pairwise distinct keeps every row. -/
theorem keepFirstPerIso2_eq_self :
    ∀ (l : List Airport) (seen : List String),
      (l.map Airport.iso2).Nodup → (∀ a ∈ l, a.iso2 ∉ seen) →
      keepFirstPerIso2 l seen = l := by
  intro l
  induction l with
  | nil => intro seen _ _; rfl
  | cons a t ih =>
    intro seen hnd hseen
    rw [List.map_cons, List.nodup_cons] at hnd
    have hc : seen.contains a.iso2 = false := by
      simpa using hseen a (List.mem_cons_self a t)
    rw [keepFirstPerIso2, hc]
    simp only [Bool.false_eq_true, if_false]
    congr 1
    refine ih (a.iso2 :: seen) hnd.2 ?_
    intro b hb
    have hne : b.iso2 ≠ a.iso2 :=
      fun h => hnd.1 (h ▸ List.mem_map_of_mem Airport.iso2 hb)
    simp only [List.mem_cons, not_or]
    exact ⟨hne, hseen b (List.mem_cons_of_mem a hb)⟩

/-- The hub country codes are injective in the index. -/
theorem hubIso2_inj : ∀ (i j : Nat), hubIso2 i = hubIso2 j → i = j := by
  intro i j h
  have hd : List.replicate i 'C' = List.replicate j 'C' :=
    congrArg String.data h
  have := congrArg List.length hd
  simpa using this

/-- Every country code in `mkHubs vol k` is `hubIso2 j` for some index
`1 ≤ j ≤ k`. -/
theorem mem_mkHubs_iso2 :
    ∀ (k vol : Nat) (x : String),
      x ∈ (mkHubs vol k).map Airport.iso2 →
      ∃ j, 1 ≤ j ∧ j ≤ k ∧ x = hubIso2 j := by
  intro k
  induction k with
  | zero => intro vol x hx; simp [mkHubs] at hx
  | succ k ih =>
    intro vol x hx
    rw [mkHubs, List.map_cons] at hx
    rcases List.mem_cons.mp hx with h | h
    · exact ⟨k + 1, by omega, le_refl _, h⟩
    · obtain ⟨j, h1, h2, h3⟩ := ih (vol - 1) x h
      exact ⟨j, h1, by omega, h3⟩

/-- Every IATA code in `mkHubs vol k` is `hubIata j` for some index
`1 ≤ j ≤ k`. -/
theorem mem_mkHubs_iata :
    ∀ (k vol : Nat) (x : String),
      x ∈ (mkHubs vol k).map Airport.iata_code →
      ∃ j, 1 ≤ j ∧ j ≤ k ∧ x = hubIata j := by
  intro k
  induction k with
  | zero => intro vol x hx; simp [mkHubs] at hx
  | succ k ih =>
    intro vol x hx
    rw [mkHubs, List.map_cons] at hx
    rcases List.mem_cons.mp hx with h | h
    · exact ⟨k + 1, by omega, le_refl _, h⟩
    · obtain ⟨j, h1, h2, h3⟩ := ih (vol - 1) x h
      exact ⟨j, h1, by omega, h3⟩

/-- The hub country codes of `mkHubs vol k` are pairwise distinct. -/
theorem mkHubs_iso2_nodup :
    ∀ (k vol : Nat), ((mkHubs vol k).map Airport.iso2).Nodup := by
  intro k
  induction k with
  | zero => intro vol; simp [mkHubs]
  | succ k ih =>
    intro vol
    rw [mkHubs, List.map_cons, List.nodup_cons]
    refine ⟨?_, ih (vol - 1)⟩
    intro hmem
    obtain ⟨j, h1, h2, h3⟩ := mem_mkHubs_iso2 k (vol - 1) _ hmem
    have := hubIso2_inj (k + 1) j h3
    omega

/-- No hub country code is the US code. -/
theorem hubIso2_ne_US : ∀ (j : Nat), hubIso2 j ≠ "US" := by
  intro j h
  have hd : List.replicate j 'C' = "US".data := congrArg String.data h
  have hj : j = 2 := by
    have := congrArg List.length hd
    simpa using this
  subst hj
  exact absurd hd (by decide)

/-- No hub country code is the DE code. -/
theorem hubIso2_ne_DE : ∀ (j : Nat), hubIso2 j ≠ "DE" := by
  intro j h
  have hd : List.replicate j 'C' = "DE".data := congrArg String.data h
  have hj : j = 2 := by
    have := congrArg List.length hd
    simpa using this
  subst hj
  exact absurd hd (by decide)

/-- No hub IATA code is the US origin code. -/
theorem hubIata_ne_USH : ∀ (j : Nat), hubIata j ≠ "USH" := by
  intro j h
  have hd : List.replicate j 'A' = "USH".data := congrArg String.data h
  have hj : j = 3 := by
    have := congrArg List.length hd
    simpa using this
  subst hj
  exact absurd hd (by decide)

/-- No hub IATA code is the DE origin code. -/
theorem hubIata_ne_DEH : ∀ (j : Nat), hubIata j ≠ "DEH" := by
  intro j h
  have hd : List.replicate j 'A' = "DEH".data := congrArg String.data h
  have hj : j = 3 := by
    have := congrArg List.length hd
    simpa using this
  subst hj
  exact absurd hd (by decide)

/-- The generated airports frame is already sorted by descending volume. -/
theorem mkAirports_chain :
    ∀ (k : Nat), k ≤ 3000 →
      List.Chain'
        (fun a b : Airport => b.passenger_volume < a.passenger_volume)
        (mkAirports k) := by
  intro k hk
  rw [mkAirports, List.chain'_cons', List.chain'_cons']
  refine ⟨fun y hy => ?_, fun y hy => ?_, mkHubs_chain k 3000 hk⟩
  · simp only [List.head?_cons, Option.mem_def, Option.some.injEq] at hy
    rw [← hy]
    decide
  · cases k with
    | zero => simp [mkHubs] at hy
    | succ j =>
      rw [mkHubs] at hy
      simp only [List.head?_cons, Option.mem_def, Option.some.injEq] at hy
      rw [← hy]
      show (3000 : Nat) < 4000
      decide

/-- The generated airports frame has one airport per country. -/
theorem mkAirports_iso2_nodup :
    ∀ (k : Nat), ((mkAirports k).map Airport.iso2).Nodup := by
  intro k
  rw [mkAirports, List.map_cons, List.map_cons, List.nodup_cons,
    List.nodup_cons]
  refine ⟨?_, ?_, mkHubs_iso2_nodup k 3000⟩
  · intro h
    rcases List.mem_cons.mp h with h | h
    · exact absurd h (by decide)
    · obtain ⟨j, _, _, h3⟩ := mem_mkHubs_iso2 k 3000 _ h
      exact hubIso2_ne_US j h3.symm
  · intro h
    obtain ⟨j, _, _, h3⟩ := mem_mkHubs_iso2 k 3000 _ h
    exact hubIso2_ne_DE j h3.symm

/-- The frame `mkHubs vol k` has exactly `k` airports. -/
theorem mkHubs_length : ∀ (k vol : Nat), (mkHubs vol k).length = k := by
  intro k
  induction k with
  | zero => intro vol; rfl
  | succ k ih => intro vol; rw [mkHubs, List.length_cons, ih (vol - 1)]

/-- On the generated airports frame, origin selection picks the busiest US
and DE airports and keeps every country hub as a destination. -/
theorem prepare_mkAirports :
    ∀ (k : Nat), k ≤ 3000 →
      prepareOriginsAndDests (mkAirports k) =
        some ("USH", "DEH", (mkAirports k).map Airport.iata_code) := by
  intro k hk
  unfold prepareOriginsAndDests
  rw [sortByVolumeDesc_fix _ (mkAirports_chain k hk)]
  rw [keepFirstPerIso2_eq_self _ _ (mkAirports_iso2_nodup k)
    (by intro a _; simp)]
  rw [mkAirports]
  simp [List.find?]

/-- When no destination collides with either origin, every destination
contributes exactly two routes. -/
theorem genRoutes_len :
    ∀ (u d : String) (dests : List String),
      (∀ x ∈ dests, x ≠ u ∧ x ≠ d) →
      (genRoutes u d dests).length = 2 * dests.length := by
  intro u d dests
  induction dests with
  | nil => intro _; rfl
  | cons x xs ih =>
    intro h
    have hx := h x (List.mem_cons_self x xs)
    rw [genRoutes, List.flatMap_cons]
    rw [if_pos hx.1, if_pos hx.2]
    have ht : (genRoutes u d xs).length = 2 * xs.length :=
      ih (fun y hy => h y (List.mem_cons_of_mem x hy))
    rw [List.length_append]
    rw [show genRoutes u d xs = xs.flatMap (fun z =>
      (if z ≠ u then [(u, z)] else []) ++
      (if z ≠ d then [(d, z)] else [])) from rfl] at ht
    rw [ht]
    simp only [List.length_cons, List.length_append, List.length_cons,
      List.length_nil, List.length_cons]
    omega

/-- The generated airports frame yields `2k + 2` routes. -/
theorem routesOf_mkAirports :
    ∀ (k : Nat), k ≤ 3000 →
      (routesOf (mkAirports k)).length = 2 * k + 2 := by
  intro k hk
  unfold routesOf
  rw [prepare_mkAirports k hk]
  show (genRoutes "USH" "DEH"
    ("USH" :: "DEH" :: (mkHubs 3000 k).map Airport.iata_code)).length =
    2 * k + 2
  have h1 : genRoutes "USH" "DEH"
      ("USH" :: "DEH" :: (mkHubs 3000 k).map Airport.iata_code) =
      ("DEH", "USH") :: ("USH", "DEH") ::
        genRoutes "USH" "DEH" ((mkHubs 3000 k).map Airport.iata_code) := by
    unfold genRoutes
    rw [List.flatMap_cons, List.flatMap_cons]
    rw [if_neg (by decide : ¬ ("USH" : String) ≠ "USH")]
    rw [if_pos (by decide : ("USH" : String) ≠ "DEH")]
    rw [if_pos (by decide : ("DEH" : String) ≠ "USH")]
    rw [if_neg (by decide : ¬ ("DEH" : String) ≠ "DEH")]
    rfl
  have hdest : ∀ x ∈ (mkHubs 3000 k).map Airport.iata_code,
      x ≠ "USH" ∧ x ≠ "DEH" := by
    intro x hx
    obtain ⟨j, _, _, h3⟩ := mem_mkHubs_iata k 3000 x hx
    subst h3
    exact ⟨hubIata_ne_USH j, hubIata_ne_DEH j⟩
  rw [h1]
  simp only [List.length_cons]
  rw [genRoutes_len "USH" "DEH" _ hdest, List.length_map,
    mkHubs_length k 3000]

/-- Each route fetched produces exactly one `routeFetch` event. -/
theorem fetchRoutes_count :
    ∀ (oracle : String × String → Option Offer)
      (routes : List (String × String)),
      routeFetchCount (fetchRoutes oracle routes).1 = routes.length := by
  intro oracle routes
  induction routes with
  | nil => rfl
  | cons r rs ih =>
    rw [fetchRoutes]
    simp only [routeFetchCount, List.countP_cons] at ih ⊢
    simp [ih]

/-- C10: `get_flight_network_data` fetches at most 1000 routes in any run,
and whenever the generated route list exceeds 1000 routes an uncached run
(cache missing or unparseable) aborts with an empty DataFrame, an empty
event trace — no route fetch, no authentication, and no cache write. -/
theorem flight_route_cap :
    ∀ (cache : Option (Option (List RouteRow))) (creds : Bool)
      (airports : List Airport) (tokenOk : Bool)
      (oracle : String × String → Option Offer),
      routeFetchCount
        (get_flight_network_data cache creds airports tokenOk oracle).1
        ≤ 1000 ∧
      (1000 < (routesOf airports).length →
        get_flight_network_data none creds airports tokenOk oracle =
          ([], []) ∧
        get_flight_network_data (some none) creds airports tokenOk oracle =
          ([], [])) := by
  intro cache creds airports tokenOk oracle
  have habort : 1000 < (routesOf airports).length →
      ∀ (cc : Option (Option (List RouteRow))), cc = none ∨ cc = some none →
      get_flight_network_data cc creds airports tokenOk oracle = ([], []) := by
    intro h cc hcc
    cases hp : prepareOriginsAndDests airports with
    | none =>
      rw [routesOf, hp] at h
      exact absurd h (by decide)
    | some triple =>
      obtain ⟨usO, deO, dests⟩ := triple
      have hgt : 1000 < (genRoutes usO deO dests).length := by
        rw [routesOf, hp] at h
        exact h
      rcases hcc with hcc | hcc <;> subst hcc <;>
        cases creds <;>
        simp [get_flight_network_data, hp, hgt]
  constructor
  · match cache with
    | some (some df) => simp [get_flight_network_data, routeFetchCount]
    | none | some none =>
      cases creds with
      | false => simp [get_flight_network_data, routeFetchCount]
      | true =>
        cases hp : prepareOriginsAndDests airports with
        | none => simp [get_flight_network_data, hp, routeFetchCount]
        | some triple =>
          obtain ⟨usO, deO, dests⟩ := triple
          by_cases hlen : 1000 < (genRoutes usO deO dests).length
          · simp [get_flight_network_data, hp, hlen, routeFetchCount]
          · cases tokenOk with
            | false => simp [get_flight_network_data, hp, hlen, routeFetchCount]
            | true =>
              have hcount := fetchRoutes_count oracle (genRoutes usO deO dests)
              simp only [get_flight_network_data, hp, if_neg hlen, if_pos rfl,
                if_true]
              by_cases he : (fetchRoutes oracle (genRoutes usO deO dests)).2.isEmpty <;>
                simp [he, routeFetchCount, List.countP_append] at hcount ⊢ <;>
                omega
  · intro h
    exact ⟨habort h none (Or.inl rfl), habort h (some none) (Or.inr rfl)⟩

/-- C10 witness: an airports frame with 502 one-airport countries
generates 1002 routes, and the run aborts with no fetch, no write, and an
empty DataFrame. -/
theorem flight_route_cap_witness :
    1000 < (routesOf (mkAirports 500)).length ∧
    get_flight_network_data none true (mkAirports 500) true (fun _ => none) =
      ([], []) := by
  have hroutes : 1000 < (routesOf (mkAirports 500)).length := by
    rw [routesOf_mkAirports 500 (by norm_num)]
    norm_num
  exact ⟨hroutes,
    ((flight_route_cap none true (mkAirports 500) true
      (fun _ => none)).2 hroutes).1⟩

end Dashboard
